import Mathlib

/-!
Shallow embedding of the Indicator & Signal Computation Pipeline of the
stock-prediction repository (src/app.py, src/engine/indicators.py,
src/engine/predictors.py).

Modelling conventions:
* Python floats are modelled by `ℚ` wherever the source computes with
  rational operations only; `Real.sqrt` (over `ℝ`) is used where the source
  takes a square root (standard deviations).
* IEEE special values matter only in the stochastic-oscillator path
  (`k = 100 * (close - ll) / (hh - ll)` can be ±inf or NaN) and in the
  Bollinger path for short series (NaN); these are modelled by the explicit
  sum types `PFloat` (rational payload) and `RFloat` (real payload).
* pandas `Series.rolling(w)` uses `min_periods = w`, so a rolling value at
  the last index is defined iff the series has at least `w` entries; the
  source only ever extracts the last value (`iloc[-1]`), so each indicator
  is embedded as the function computing that last value.
* pandas `ewm(span, adjust=False)` is the recurrence
  `y0 = x0, y(i) = y(i-1) + α (x(i) - y(i-1))` with `α = 2 / (span + 1)`.
-/

/-- Positional access with the default `0` (the only default the model needs);
mirrors reading `series[i]` on an in-bounds index. -/
def nth (xs : List ℚ) (i : ℕ) : ℚ := xs.getD i 0

/-- The trailing `k` entries of a list: `xs[-k:]`. -/
def lastN (k : ℕ) (xs : List ℚ) : List ℚ := xs.drop (xs.length - k)

/-- The last entry of a list (`series.iloc[-1]`), `0` on an empty list. -/
def lastD (xs : List ℚ) : ℚ := nth xs (xs.length - 1)

/-- Arithmetic mean of a list. -/
def listMean (xs : List ℚ) : ℚ := xs.sum / xs.length

/-- Minimum of a list (`Series.min()`); `0` on the empty list, which no
source path reaches. -/
def listMin : List ℚ → ℚ
  | [] => 0
  | x :: xs => xs.foldl min x

/-- Maximum of a list (`Series.max()`); `0` on the empty list. -/
def listMax : List ℚ → ℚ
  | [] => 0
  | x :: xs => xs.foldl max x

/-- Consecutive differences, `Series.diff()` / `np.diff` without the leading
NaN slot: `diffs [a, b, c] = [b - a, c - b]`. -/
def diffs : List ℚ → List ℚ
  | [] => []
  | [_] => []
  | x :: y :: t => (y - x) :: diffs (y :: t)

/-- Simple period-over-period returns: `np.diff(closes) / closes[:-1]`. -/
def returnsOf (closes : List ℚ) : List ℚ :=
  List.zipWith (fun prev next => (next - prev) / prev) closes closes.tail

/-- Population variance (`np.std` squared, ddof = 0). -/
def varPop (xs : List ℚ) : ℚ :=
  ((xs.map (fun x => (x - listMean xs) ^ 2)).sum) / xs.length

/-- Sample variance (pandas `Series.std()` squared, ddof = 1). -/
def varSamp (xs : List ℚ) : ℚ :=
  ((xs.map (fun x => (x - listMean xs) ^ 2)).sum) / (xs.length - 1 : ℚ)

/-- An IEEE double restricted to the values the stochastic oscillator can
produce from finite rational inputs. -/
inductive PFloat where
  | fin (q : ℚ)
  | pinf
  | ninf
  | nan
deriving DecidableEq, Repr

/-- A real-valued float that may be NaN (Bollinger bands on a series shorter
than the 20-bar window). -/
inductive RFloat where
  | fin (x : ℝ)
  | nan

/-- IEEE addition on `PFloat` (finite + finite never overflows in the model). -/
def addPF : PFloat → PFloat → PFloat
  | .nan, _ => .nan
  | _, .nan => .nan
  | .pinf, .ninf => .nan
  | .ninf, .pinf => .nan
  | .pinf, _ => .pinf
  | _, .pinf => .pinf
  | .ninf, _ => .ninf
  | _, .ninf => .ninf
  | .fin a, .fin b => .fin (a + b)

/-- Division of a `PFloat` by the positive constant 3 (the only division the
rolling mean of window 3 needs); preserves the IEEE class. -/
def div3PF : PFloat → PFloat
  | .fin a => .fin (a / 3)
  | x => x

/-- `Series.rolling(3).mean()` on three consecutive float values. -/
def pfloatMean3 (a b c : PFloat) : PFloat := div3PF (addPF (addPF a b) c)

/-- The `if not pd.isna(x.iloc[-1]) else 50.0` guard of the source: NaN maps
to the fallback `50.0`, every other value (finite or ±inf) passes through. -/
def unNaN : PFloat → PFloat
  | .nan => .fin 50
  | x => x

/-- A `PFloat` is a finite value. -/
def PFloat.isFinite : PFloat → Prop
  | .fin _ => True
  | _ => False

/-- Last value of `prices.ewm(span=span, adjust=False).mean()`:
`y0 = x0, y(i) = y(i-1) + α (x(i) - y(i-1))`, `α = 2 / (span + 1)`;
`0` on the empty series (never extracted by the source there). -/
def ewmaLast (span : ℕ) : List ℚ → ℚ
  | [] => 0
  | x :: t => t.foldl (fun a z => a + (2 / ((span : ℚ) + 1)) * (z - a)) x

/-- The full series `prices.ewm(span=span, adjust=False).mean()`, built from
the seed `a` of the previous value. -/
def ewmaFrom (α : ℚ) : ℚ → List ℚ → List ℚ
  | _, [] => []
  | a, x :: t =>
    let b := a + α * (x - a)
    b :: ewmaFrom α b t

/-- The running EWM series (same length as the input). -/
def ewmaSeries (span : ℕ) : List ℚ → List ℚ
  | [] => []
  | x :: t => x :: ewmaFrom (2 / ((span : ℚ) + 1)) x t

/-- `calculate_rsi(prices, period=14)` of src/engine/indicators.py, last
value.  `delta = prices.diff()`; its leading NaN is turned into `0` by the
`where` filters, so the gain/loss series are `0` followed by the clipped
differences; `rolling(14).mean()` is defined only when the series has at
least 14 entries, otherwise the result is NaN and falls back to `50.0`.
When the loss average is zero the float quotient `rs` is NaN (0/0, fallback
`50.0`) or +inf (RSI `= 100 - 100/(1 + inf) = 100`). -/
def calculate_rsi (prices : List ℚ) : ℚ :=
  if prices.length < 14 then 50
  else
    let d := diffs prices
    let gains : List ℚ := 0 :: d.map (fun x => max x 0)
    let losses : List ℚ := 0 :: d.map (fun x => max (-x) 0)
    let avgGain := (lastN 14 gains).sum / 14
    let avgLoss := (lastN 14 losses).sum / 14
    if avgLoss = 0 then (if avgGain = 0 then 50 else 100)
    else 100 - 100 / (1 + avgGain / avgLoss)

/-- The MACD line `EMA(12) - EMA(26)` as a series. -/
def macdSeries (prices : List ℚ) : List ℚ :=
  List.zipWith (fun a b => a - b) (ewmaSeries 12 prices) (ewmaSeries 26 prices)

/-- `calculate_macd(prices)['macd']`: last value of the MACD line,
`0.0` on an empty series. -/
def calculate_macd (prices : List ℚ) : ℚ :=
  if prices.isEmpty then 0 else ewmaLast 12 prices - ewmaLast 26 prices

/-- `calculate_macd(prices)['signal']`: last value of the EMA(9) of the MACD
line, `0.0` on an empty series. -/
def calculate_macd_signal (prices : List ℚ) : ℚ :=
  if prices.isEmpty then 0 else ewmaLast 9 (macdSeries prices)

/-- `calculate_macd(prices)['histogram']`: `macd - signal` at the last
sample, `0.0` on an empty series. -/
def calculate_macd_histogram (prices : List ℚ) : ℚ :=
  if prices.isEmpty then 0
  else calculate_macd prices - calculate_macd_signal prices

/-- `calculate_ma(prices, period)`: trailing mean over `period` samples;
falls back to the latest raw value when the rolling window is undefined
(fewer than `period` samples) and to `0.0` on an empty series. -/
def calculate_ma (prices : List ℚ) (period : ℕ) : ℚ :=
  if prices.isEmpty then 0
  else if prices.length < period then lastD prices
  else listMean (lastN period prices)

/-- `calculate_ema(prices, period)`: last EWM value; `0.0` on an empty
series (the source raises and falls back to `0.0` there). -/
def calculate_ema (prices : List ℚ) (period : ℕ) : ℚ :=
  if prices.isEmpty then 0 else ewmaLast period prices

/-- `calculate_bollinger_bands(prices)['upper']`:
`SMA(20) + 2 * rolling-std(20)` when the 20-bar window is defined; the
source does not test `pd.isna` here, so for `1 ≤ n < 20` the rolling NaN
leaks out; the empty series hits the except-branch with `current = 0`. -/
noncomputable def calculate_bb_upper (prices : List ℚ) : RFloat :=
  if 20 ≤ prices.length then
    .fin ((listMean (lastN 20 prices) : ℝ) +
      Real.sqrt (varSamp (lastN 20 prices)) * 2)
  else if prices.isEmpty then .fin 0 else .nan

/-- `calculate_bollinger_bands(prices)['middle']`: `SMA(20)`, with the same
NaN leak as the upper band. -/
def calculate_bb_middle (prices : List ℚ) : RFloat :=
  if 20 ≤ prices.length then .fin ((listMean (lastN 20 prices) : ℝ))
  else if prices.isEmpty then .fin 0 else .nan

/-- `calculate_bollinger_bands(prices)['lower']`:
`SMA(20) - 2 * rolling-std(20)`. -/
noncomputable def calculate_bb_lower (prices : List ℚ) : RFloat :=
  if 20 ≤ prices.length then
    .fin ((listMean (lastN 20 prices) : ℝ) -
      Real.sqrt (varSamp (lastN 20 prices)) * 2)
  else if prices.isEmpty then .fin 0 else .nan

/-- The raw `%K` value at the last index:
`100 * (close - lowest_low_14) / (highest_high_14 - lowest_low_14)` with
IEEE semantics for the zero denominator; NaN when the 14-bar rolling window
is undefined. -/
def stochK (high low close : List ℚ) : PFloat :=
  if close.length < 14 then .nan
  else
    let ll := listMin (lastN 14 low)
    let hh := listMax (lastN 14 high)
    let num := 100 * (lastD close - ll)
    let den := hh - ll
    if den = 0 then
      (if 0 < num then .pinf else if num < 0 then .ninf else .nan)
    else .fin (num / den)

/-- The raw `%D` value at the last index: `rolling(3).mean()` of the `%K`
series, i.e. the mean of the `%K` values at the last three positions (each
computed over the corresponding prefix of the bars). -/
def stochD (high low close : List ℚ) : PFloat :=
  let n := close.length
  if n < 3 then .nan
  else
    pfloatMean3
      (stochK (high.take (n - 2)) (low.take (n - 2)) (close.take (n - 2)))
      (stochK (high.take (n - 1)) (low.take (n - 1)) (close.take (n - 1)))
      (stochK high low close)

/-- `calculate_stochastic(high, low, close)['k']` with the NaN fallback
`50.0` (an infinite value is *not* NaN and passes through). -/
def calculate_stochastic_k (high low close : List ℚ) : PFloat :=
  unNaN (stochK high low close)

/-- `calculate_stochastic(high, low, close)['d']` with the NaN fallback
`50.0`. -/
def calculate_stochastic_d (high low close : List ℚ) : PFloat :=
  unNaN (stochD high low close)

/-- The per-bar true range: `max(high - low, |high - prev_close|,
|low - prev_close|)`; at the first bar the two shifted terms are NaN and
the row-wise max skips them, leaving `high - low`. -/
def trueRanges (high low close : List ℚ) : List ℚ :=
  match high, low with
  | h0 :: _, l0 :: _ =>
    (h0 - l0) ::
      List.zipWith (fun (hl : ℚ × ℚ) (pc : ℚ) =>
          max (hl.1 - hl.2) (max |hl.1 - pc| |hl.2 - pc|))
        (List.zipWith (fun a b => (a, b)) high.tail low.tail) close
  | _, _ => []

/-- `calculate_atr(high, low, close, period=14)`: trailing mean of the true
range over 14 bars, `0.0` when the window is undefined. -/
def calculate_atr (high low close : List ℚ) : ℚ :=
  if close.length < 14 then 0
  else listMean (lastN 14 (trueRanges high low close))

/-- The discrete trading signal. -/
inductive Signal where
  | buy
  | sell
  | hold
deriving DecidableEq, Repr

/-- The trend label (rendered as `Bullish 📈` / `Bearish 📉` / `Neutral ➡️`
by the source). -/
inductive TrendLabel where
  | bullish
  | bearish
  | neutral
deriving DecidableEq, Repr

/-- The risk level. -/
inductive RiskLevel where
  | high
  | medium
  | low
deriving DecidableEq, Repr

/-- `determine_signal(indicators)` of src/app.py: vote counting over the
`rsi` and `macd` entries of the indicator set, following the source's
if/elif cascades exactly. -/
def determine_signal (rsi macd : ℚ) : Signal :=
  let rsiVotes : ℕ × ℕ :=
    if rsi < 30 then (1, 0) else if rsi > 70 then (0, 1) else (0, 0)
  let macdVotes : ℕ × ℕ :=
    if macd > 0 then (1, 0) else if macd < 0 then (0, 1) else (0, 0)
  let buySignals := rsiVotes.1 + macdVotes.1
  let sellSignals := rsiVotes.2 + macdVotes.2
  if buySignals > sellSignals then .buy
  else if sellSignals > buySignals then .sell
  else .hold

/-- `determine_trend(indicators, timeframe)` of src/app.py: the `timeframe`
argument is received but never read. -/
def determine_trend (ma20 ma50 : ℚ) (timeframe : String) : TrendLabel :=
  if ma20 > ma50 then .bullish
  else if ma20 < ma50 then .bearish
  else .neutral

/-- `determine_risk_level(indicators)` of src/app.py, rules in source
order. -/
def determine_risk_level (rsi : ℚ) : RiskLevel :=
  if rsi > 70 ∨ rsi < 30 then .high
  else if rsi > 60 ∨ rsi < 40 then .medium
  else .low

/-- `calculate_volatility(stock_data)` of src/app.py: annualized standard
deviation of simple returns, as a percentage
(`np.std(returns) * np.sqrt(252) * 100`); `0` with fewer than 2 closes. -/
noncomputable def calculate_volatility (closes : List ℚ) : ℝ :=
  if closes.length < 2 then 0
  else Real.sqrt (varPop (returnsOf closes)) * Real.sqrt 252 * 100

/-- `calculate_support(stock_data)` of src/app.py: minimum of the last 20
lows, `0` when no lows exist. -/
def calculate_support (lows : List ℚ) : ℚ :=
  if lows.isEmpty then 0 else listMin (lastN 20 lows)

/-- `calculate_resistance(stock_data)` of src/app.py: maximum of the last 20
highs, `0` when no highs exist. -/
def calculate_resistance (highs : List ℚ) : ℚ :=
  if highs.isEmpty then 0 else listMax (lastN 20 highs)

/-- `np.clip(x, lo, hi)`. -/
def npClip (x lo hi : ℚ) : ℚ := min (max x lo) hi

/-- `calculate_confidence(volatility, data_points)` of
src/engine/predictors.py. -/
def calculate_confidence (volatility : ℚ) (data_points : ℕ) : ℚ :=
  npClip
    (70 - min (volatility * 2) 30 -
      (if data_points < 30 then (30 : ℚ) - data_points else 0))
    0 100

/-- `predict_next_period(current_price, trend_strength, volatility, hours)`
of src/engine/predictors.py, with the value `r` drawn by
`np.random.uniform(-volatility/100, volatility/100)` passed explicitly. -/
def predict_next_period (current_price trend_strength volatility : ℚ)
    (hours : ℕ) (r : ℚ) : ℚ :=
  current_price * (1 + trend_strength * (1 / 1000) * hours) * (1 + r)

/-- `linear_regression_predict(prices, periods_ahead=5)` of
src/engine/predictors.py: ordinary least squares of the trailing 30 closes
against the 0-based index `0 .. n-1`, evaluated at `n + 5` (`future_x =
len(data) + periods_ahead`).  With all regressors equal (only possible for
`n = 1`) the centered least-squares slope is `0` and the fit predicts the
mean; the empty series falls back to `0.0`. -/
def linear_regression_predict (prices : List ℚ) : ℚ :=
  if prices.isEmpty then 0
  else
    let data := lastN 30 prices
    let n : ℚ := data.length
    let xs : List ℚ := (List.range data.length).map (fun i => (i : ℚ))
    let sx := xs.sum
    let sy := data.sum
    let sxx := (xs.map (fun x => x ^ 2)).sum
    let sxy := (List.zipWith (fun x y => x * y) xs data).sum
    let den := n * sxx - sx ^ 2
    let slope := if den = 0 then 0 else (n * sxy - sx * sy) / den
    let intercept := sy / n - slope * (sx / n)
    intercept + slope * (n + 5)

/-- The full indicator set of `calculate_indicators(stock_data)` of
src/engine/indicators.py: one field per key of the returned dict, each
holding the latest scalar value of that indicator.  Fields valued in `ℚ`
(or `ℝ` for the Bollinger bands) are finite by construction, exactly as the
corresponding float computations are on finite inputs; the stochastic
fields are the only ones whose float computation can produce a non-finite
value, so they are `PFloat`-valued. -/
structure IndicatorSet where
  rsi : ℚ
  macd : ℚ
  macd_signal : ℚ
  macd_histogram : ℚ
  ma20 : ℚ
  ma50 : ℚ
  ma200 : ℚ
  ema12 : ℚ
  ema26 : ℚ
  bb_upper : RFloat
  bb_middle : RFloat
  bb_lower : RFloat
  stoch_k : PFloat
  stoch_d : PFloat
  atr : ℚ
  volume_ma : ℚ

/-- `calculate_indicators(stock_data)`: assembles all 16 indicator values
from the four parallel series. -/
noncomputable def calculate_indicators (close high low volume : List ℚ) :
    IndicatorSet where
  rsi := calculate_rsi close
  macd := calculate_macd close
  macd_signal := calculate_macd_signal close
  macd_histogram := calculate_macd_histogram close
  ma20 := calculate_ma close 20
  ma50 := calculate_ma close 50
  ma200 := calculate_ma close 200
  ema12 := calculate_ema close 12
  ema26 := calculate_ema close 26
  bb_upper := calculate_bb_upper close
  bb_middle := calculate_bb_middle close
  bb_lower := calculate_bb_lower close
  stoch_k := calculate_stochastic_k high low close
  stoch_d := calculate_stochastic_d high low close
  atr := calculate_atr high low close
  volume_ma := calculate_ma volume 20

/-- The buy-vote count exactly as claim C2 words it: `rsi < 30` adds one
buy-vote, `macd > 0` adds one buy-vote. -/
def buyVotes (rsi macd : ℚ) : ℕ :=
  (if rsi < 30 then 1 else 0) + (if macd > 0 then 1 else 0)

/-- The sell-vote count exactly as claim C2 words it: `rsi > 70` adds one
sell-vote, `macd < 0` adds one sell-vote. -/
def sellVotes (rsi macd : ℚ) : ℕ :=
  (if rsi > 70 then 1 else 0) + (if macd < 0 then 1 else 0)

/-- Severity order on risk levels (`low < medium < high`), used to state
monotonicity of the classification. -/
def riskRank : RiskLevel → ℕ
  | .low => 0
  | .medium => 1
  | .high => 2

/-! ### Structural lemmas about the list helpers -/

lemma nth_nil (i : ℕ) : nth [] i = 0 := rfl

lemma nth_cons_succ (x : ℚ) (t : List ℚ) (i : ℕ) :
    nth (x :: t) (i + 1) = nth t i := rfl

lemma nth_drop (xs : List ℚ) (m i : ℕ) : nth (xs.drop m) i = nth xs (m + i) := by
  induction xs generalizing m with
  | nil => simp [nth]
  | cons x t ih =>
    cases m with
    | zero => simp
    | succ m =>
      rw [List.drop_succ_cons, ih m]
      have : m + 1 + i = (m + i) + 1 := by omega
      rw [this, nth_cons_succ]

lemma nth_take (xs : List ℚ) {m i : ℕ} (h : i < m) :
    nth (xs.take m) i = nth xs i := by
  induction xs generalizing m i with
  | nil => simp
  | cons x t ih =>
    cases m with
    | zero => omega
    | succ m =>
      cases i with
      | zero => simp [nth]
      | succ i => rw [List.take_succ_cons, nth_cons_succ, nth_cons_succ,
          ih (by omega)]

lemma nth_mem (xs : List ℚ) {i : ℕ} (h : i < xs.length) : nth xs i ∈ xs := by
  induction xs generalizing i with
  | nil => simp at h
  | cons x t ih =>
    cases i with
    | zero => simp [nth]
    | succ i =>
      rw [nth_cons_succ]
      exact List.mem_cons_of_mem _ (ih (by simpa using h))

lemma nth_replicate (n : ℕ) (c : ℚ) (i : ℕ) :
    nth (List.replicate n c) i = if i < n then c else 0 := by
  induction n generalizing i with
  | zero => simp [nth]
  | succ n ih =>
    rw [List.replicate_succ]
    cases i with
    | zero => simp [nth]
    | succ i => rw [nth_cons_succ, ih]; simp [Nat.succ_lt_succ_iff]

lemma foldl_min_le (a : ℚ) (xs : List ℚ) : xs.foldl min a ≤ a := by
  induction xs generalizing a with
  | nil => exact le_refl a
  | cons b t ih => exact le_trans (ih (min a b)) (min_le_left a b)

lemma foldl_min_le_mem {a x : ℚ} {xs : List ℚ} (h : x ∈ xs) :
    xs.foldl min a ≤ x := by
  induction xs generalizing a with
  | nil => simp at h
  | cons b t ih =>
    rcases List.mem_cons.mp h with rfl | hx
    · exact le_trans (foldl_min_le (min a x) t) (min_le_right a x)
    · exact ih hx

lemma le_foldl_max (a : ℚ) (xs : List ℚ) : a ≤ xs.foldl max a := by
  induction xs generalizing a with
  | nil => exact le_refl a
  | cons b t ih => exact le_trans (le_max_left a b) (ih (max a b))

lemma mem_le_foldl_max {a x : ℚ} {xs : List ℚ} (h : x ∈ xs) :
    x ≤ xs.foldl max a := by
  induction xs generalizing a with
  | nil => simp at h
  | cons b t ih =>
    rcases List.mem_cons.mp h with rfl | hx
    · exact le_trans (le_max_right a x) (le_foldl_max (max a x) t)
    · exact ih hx

lemma listMin_le {xs : List ℚ} {x : ℚ} (h : x ∈ xs) : listMin xs ≤ x := by
  cases xs with
  | nil => simp at h
  | cons b t =>
    rcases List.mem_cons.mp h with rfl | hx
    · exact foldl_min_le x t
    · exact foldl_min_le_mem hx

lemma le_listMax {xs : List ℚ} {x : ℚ} (h : x ∈ xs) : x ≤ listMax xs := by
  cases xs with
  | nil => simp at h
  | cons b t =>
    rcases List.mem_cons.mp h with rfl | hx
    · exact le_foldl_max x t
    · exact mem_le_foldl_max hx

lemma foldl_min_replicate (a c : ℚ) (n : ℕ) :
    (List.replicate n c).foldl min a = if n = 0 then a else min a c := by
  induction n generalizing a with
  | zero => simp
  | succ n ih =>
    rw [List.replicate_succ, List.foldl_cons, ih]
    rcases Nat.eq_zero_or_pos n with rfl | hn
    · simp
    · simp [Nat.pos_iff_ne_zero.mp hn, min_assoc]

lemma foldl_max_replicate (a c : ℚ) (n : ℕ) :
    (List.replicate n c).foldl max a = if n = 0 then a else max a c := by
  induction n generalizing a with
  | zero => simp
  | succ n ih =>
    rw [List.replicate_succ, List.foldl_cons, ih]
    rcases Nat.eq_zero_or_pos n with rfl | hn
    · simp
    · simp [Nat.pos_iff_ne_zero.mp hn, max_assoc]

lemma listMin_replicate {n : ℕ} (hn : n ≠ 0) (c : ℚ) :
    listMin (List.replicate n c) = c := by
  obtain ⟨m, rfl⟩ := Nat.exists_eq_succ_of_ne_zero hn
  rw [List.replicate_succ]
  show (List.replicate m c).foldl min c = c
  rw [foldl_min_replicate]; split <;> simp

lemma listMax_replicate {n : ℕ} (hn : n ≠ 0) (c : ℚ) :
    listMax (List.replicate n c) = c := by
  obtain ⟨m, rfl⟩ := Nat.exists_eq_succ_of_ne_zero hn
  rw [List.replicate_succ]
  show (List.replicate m c).foldl max c = c
  rw [foldl_max_replicate]; split <;> simp

lemma lastN_replicate (k n : ℕ) (c : ℚ) :
    lastN k (List.replicate n c) = List.replicate (min k n) c := by
  rw [lastN, List.length_replicate, List.drop_replicate]
  congr 1
  omega

lemma lastN_of_length_le {k : ℕ} {xs : List ℚ} (h : xs.length ≤ k) :
    lastN k xs = xs := by
  rw [lastN, Nat.sub_eq_zero_of_le h, List.drop_zero]

lemma length_lastN (k : ℕ) (xs : List ℚ) :
    (lastN k xs).length = min k xs.length := by
  rw [lastN, List.length_drop]
  omega

lemma lastD_append_single (xs : List ℚ) (y : ℚ) : lastD (xs ++ [y]) = y := by
  induction xs with
  | nil => rfl
  | cons a t ih =>
    have h1 : ((a :: t) ++ [y]).length - 1 = (t ++ [y]).length := by simp
    rw [lastD, h1]
    show nth (a :: (t ++ [y])) ((t ++ [y]).length) = y
    have h2 : (t ++ [y]).length = (t ++ [y]).length - 1 + 1 := by simp
    rw [h2, nth_cons_succ]
    exact ih

lemma lastD_replicate {n : ℕ} (hn : n ≠ 0) (c : ℚ) :
    lastD (List.replicate n c) = c := by
  rw [lastD, List.length_replicate, nth_replicate]
  simp [Nat.sub_lt (Nat.pos_of_ne_zero hn)]

lemma zipWith_replicate {α β γ : Type} (f : α → β → γ) (a : α) (b : β) :
    ∀ (m n : ℕ),
      List.zipWith f (List.replicate m a) (List.replicate n b) =
        List.replicate (min m n) (f a b) := by
  intro m
  induction m with
  | zero => intro n; simp
  | succ m ih =>
    intro n
    cases n with
    | zero => simp
    | succ n =>
      rw [List.replicate_succ, List.replicate_succ, List.zipWith_cons_cons,
        ih n, Nat.succ_min_succ, ← List.replicate_succ]

lemma diffs_replicate_succ (c : ℚ) :
    ∀ n : ℕ, diffs (List.replicate (n + 1) c) = List.replicate n 0 := by
  intro n
  induction n with
  | zero => rfl
  | succ n ih =>
    rw [List.replicate_succ, List.replicate_succ]
    show diffs (c :: c :: List.replicate n c) = _
    rw [diffs, ← List.replicate_succ, ih, sub_self, ← List.replicate_succ]

lemma sum_replicate_q (n : ℕ) (c : ℚ) :
    (List.replicate n c).sum = (n : ℚ) * c := by
  rw [List.sum_replicate, nsmul_eq_mul]

lemma listMean_replicate {n : ℕ} (hn : n ≠ 0) (c : ℚ) :
    listMean (List.replicate n c) = c := by
  rw [listMean, sum_replicate_q, List.length_replicate]
  exact mul_div_cancel_left₀ c (by exact_mod_cast hn)

lemma varPop_replicate (n : ℕ) (c : ℚ) :
    varPop (List.replicate n c) = 0 := by
  rcases Nat.eq_zero_or_pos n with rfl | hn
  · simp [varPop]
  · rw [varPop, listMean_replicate (Nat.pos_iff_ne_zero.mp hn), List.map_replicate,
      sub_self]
    norm_num

lemma varSamp_replicate (n : ℕ) (c : ℚ) :
    varSamp (List.replicate n c) = 0 := by
  rcases Nat.eq_zero_or_pos n with rfl | hn
  · simp [varSamp]
  · rw [varSamp, listMean_replicate (Nat.pos_iff_ne_zero.mp hn), List.map_replicate,
      sub_self]
    norm_num

lemma ewma_foldl_replicate (α c : ℚ) (n : ℕ) :
    (List.replicate n c).foldl (fun a z => a + α * (z - a)) c = c := by
  induction n with
  | zero => rfl
  | succ n ih =>
    rw [List.replicate_succ, List.foldl_cons]
    simpa using ih

lemma ewmaLast_replicate (span : ℕ) {n : ℕ} (hn : n ≠ 0) (c : ℚ) :
    ewmaLast span (List.replicate n c) = c := by
  obtain ⟨m, rfl⟩ := Nat.exists_eq_succ_of_ne_zero hn
  rw [List.replicate_succ]
  show (List.replicate m c).foldl _ c = c
  exact ewma_foldl_replicate _ c m

lemma returnsOf_replicate (n : ℕ) (c : ℚ) :
    returnsOf (List.replicate n c) = List.replicate (n - 1) 0 := by
  rw [returnsOf, List.tail_replicate, zipWith_replicate, sub_self, zero_div]
  congr 1
  omega

lemma trueRanges_replicate (n : ℕ) (c : ℚ) :
    trueRanges (List.replicate (n + 1) c) (List.replicate (n + 1) c)
      (List.replicate (n + 1) c) = List.replicate (n + 1) 0 := by
  show trueRanges (c :: List.replicate n c) (c :: List.replicate n c)
      (List.replicate (n + 1) c) = List.replicate (n + 1) 0
  rw [trueRanges]
  simp only [List.tail_cons, zipWith_replicate, min_self]
  have hmin : n ⊓ (n + 1) = n := by omega
  rw [sub_self, abs_zero, max_self, max_self, hmin, List.replicate_succ]

/-! ### Evaluation on the flat 60-bar series -/

lemma calculate_rsi_flat : calculate_rsi (List.replicate 60 (100:ℚ)) = 50 := by
  have h : diffs (List.replicate 60 (100:ℚ)) = List.replicate 59 0 :=
    diffs_replicate_succ 100 59
  simp only [calculate_rsi, List.length_replicate]
  rw [if_neg (by norm_num), h]
  simp only [List.map_replicate, neg_zero, max_self]
  rw [show ((0:ℚ) :: List.replicate 59 0) = List.replicate 60 0 from rfl,
    lastN_replicate]
  norm_num [sum_replicate_q]

lemma calculate_macd_flat : calculate_macd (List.replicate 60 (100:ℚ)) = 0 := by
  rw [calculate_macd, if_neg (by simp), ewmaLast_replicate 12 (by norm_num),
    ewmaLast_replicate 26 (by norm_num), sub_self]

lemma calculate_ma_flat {p : ℕ} (hp : p ≤ 60) (hp0 : p ≠ 0) :
    calculate_ma (List.replicate 60 (100:ℚ)) p = 100 := by
  rw [calculate_ma, if_neg (by simp), List.length_replicate,
    if_neg (by omega), lastN_replicate]
  exact listMean_replicate (by omega) 100

lemma calculate_bb_upper_flat :
    calculate_bb_upper (List.replicate 60 (100:ℚ)) = .fin 100 := by
  rw [calculate_bb_upper, if_pos (by simp), lastN_replicate]
  have h1 : min 20 60 = 20 := by norm_num
  rw [h1, listMean_replicate (by norm_num), varSamp_replicate]
  norm_num

lemma calculate_bb_lower_flat :
    calculate_bb_lower (List.replicate 60 (100:ℚ)) = .fin 100 := by
  rw [calculate_bb_lower, if_pos (by simp), lastN_replicate]
  have h1 : min 20 60 = 20 := by norm_num
  rw [h1, listMean_replicate (by norm_num), varSamp_replicate]
  norm_num

lemma calculate_atr_flat :
    calculate_atr (List.replicate 60 (100:ℚ)) (List.replicate 60 100)
      (List.replicate 60 100) = 0 := by
  have h : trueRanges (List.replicate 60 (100:ℚ)) (List.replicate 60 100)
      (List.replicate 60 100) = List.replicate 60 0 := trueRanges_replicate 59 100
  rw [calculate_atr, List.length_replicate, if_neg (by norm_num), h,
    lastN_replicate]
  have h1 : min 14 60 = 14 := by norm_num
  rw [h1, listMean_replicate (by norm_num)]

lemma calculate_volatility_flat :
    calculate_volatility (List.replicate 60 (100:ℚ)) = 0 := by
  rw [calculate_volatility, if_neg (by simp), returnsOf_replicate,
    varPop_replicate]
  simp

lemma calculate_support_flat :
    calculate_support (List.replicate 60 (100:ℚ)) = 100 := by
  rw [calculate_support, if_neg (by simp), lastN_replicate]
  exact listMin_replicate (by norm_num) 100

lemma calculate_resistance_flat :
    calculate_resistance (List.replicate 60 (100:ℚ)) = 100 := by
  rw [calculate_resistance, if_neg (by simp), lastN_replicate]
  exact listMax_replicate (by norm_num) 100

/-! ### Range lemmas for RSI and the stochastic oscillator -/

lemma sum_lastN_clip_nonneg (d : List ℚ) (f : ℚ → ℚ) (hf : ∀ y, 0 ≤ f y) :
    0 ≤ (lastN 14 ((0:ℚ) :: d.map f)).sum := by
  apply List.sum_nonneg
  intro x hx
  have hx' : x ∈ (0:ℚ) :: d.map f := List.mem_of_mem_drop hx
  rcases List.mem_cons.mp hx' with rfl | hx''
  · exact le_refl 0
  · obtain ⟨y, _, rfl⟩ := List.mem_map.mp hx''
    exact hf y

lemma rsi_formula_bounds {G L : ℚ} (hG : 0 ≤ G) (hL : 0 ≤ L) :
    0 ≤ (if L = 0 then (if G = 0 then (50:ℚ) else 100)
      else 100 - 100 / (1 + G / L)) ∧
    (if L = 0 then (if G = 0 then (50:ℚ) else 100)
      else 100 - 100 / (1 + G / L)) ≤ 100 := by
  split_ifs with h1 h2
  · norm_num
  · norm_num
  · have hLpos : 0 < L := lt_of_le_of_ne hL (Ne.symm h1)
    have hrs : 0 ≤ G / L := div_nonneg hG hLpos.le
    have h1rs : (0:ℚ) < 1 + G / L := by linarith
    constructor
    · have : 100 / (1 + G / L) ≤ 100 := by
        rw [div_le_iff₀ h1rs]
        nlinarith
      linarith
    · have : 0 ≤ 100 / (1 + G / L) := le_of_lt (div_pos (by norm_num) h1rs)
      linarith

lemma calculate_rsi_bounds (prices : List ℚ) :
    0 ≤ calculate_rsi prices ∧ calculate_rsi prices ≤ 100 := by
  simp only [calculate_rsi]
  rcases Nat.lt_or_ge prices.length 14 with h1 | h1
  · rw [if_pos h1]; norm_num
  · rw [if_neg (Nat.not_lt.mpr h1)]
    exact rsi_formula_bounds
      (div_nonneg (sum_lastN_clip_nonneg _ _ (fun y => le_max_right y 0))
        (by norm_num))
      (div_nonneg (sum_lastN_clip_nonneg _ _ (fun y => le_max_right (-y) 0))
        (by norm_num))

lemma stochK_cases {high low close : List ℚ}
    (hle : low.length = close.length) (hhe : high.length = close.length)
    (hv : ∀ i, i < close.length →
      nth low i ≤ nth close i ∧ nth close i ≤ nth high i) :
    stochK high low close = .nan ∨
      ∃ q, stochK high low close = .fin q ∧ 0 ≤ q ∧ q ≤ 100 := by
  by_cases hn : close.length < 14
  · left
    simp [stochK, hn]
  · push_neg at hn
    have hnn : ¬ close.length < 14 := Nat.not_lt.mpr hn
    have hidx : close.length - 1 < close.length := by omega
    have hlowmem : nth low (close.length - 1) ∈ lastN 14 low := by
      have h13 : nth (low.drop (low.length - 14)) 13 =
          nth low (close.length - 1) := by
        rw [nth_drop]
        congr 1
        omega
      rw [lastN, ← h13]
      apply nth_mem
      rw [List.length_drop]
      omega
    have hhimem : nth high (close.length - 1) ∈ lastN 14 high := by
      have h13 : nth (high.drop (high.length - 14)) 13 =
          nth high (close.length - 1) := by
        rw [nth_drop]
        congr 1
        omega
      rw [lastN, ← h13]
      apply nth_mem
      rw [List.length_drop]
      omega
    have hll : listMin (lastN 14 low) ≤ lastD close :=
      le_trans (listMin_le hlowmem) (hv _ hidx).1
    have hhh : lastD close ≤ listMax (lastN 14 high) :=
      le_trans (hv _ hidx).2 (le_listMax hhimem)
    simp only [stochK, if_neg hnn]
    set ll := listMin (lastN 14 low) with hlldef
    set hh := listMax (lastN 14 high) with hhhdef
    by_cases hden : hh - ll = 0
    · left
      have hcl : lastD close = ll := le_antisymm (by linarith) hll
      rw [if_pos hden]
      have hnum : 100 * (lastD close - ll) = 0 := by
        rw [hcl]
        ring
      rw [hnum]
      norm_num
    · right
      have hdenpos : 0 < hh - ll := lt_of_le_of_ne (by linarith) (Ne.symm hden)
      refine ⟨100 * (lastD close - ll) / (hh - ll), ?_, ?_, ?_⟩
      · rw [if_neg hden]
      · exact div_nonneg (by linarith) hdenpos.le
      · rw [div_le_iff₀ hdenpos]
        linarith

lemma stochD_cases {high low close : List ℚ}
    (hle : low.length = close.length) (hhe : high.length = close.length)
    (hv : ∀ i, i < close.length →
      nth low i ≤ nth close i ∧ nth close i ≤ nth high i) :
    stochD high low close = .nan ∨
      ∃ q, stochD high low close = .fin q ∧ 0 ≤ q ∧ q ≤ 100 := by
  by_cases hn : close.length < 3
  · left
    simp [stochD, hn]
  · have pref : ∀ m : ℕ,
        stochK (high.take m) (low.take m) (close.take m) = .nan ∨
          ∃ q, stochK (high.take m) (low.take m) (close.take m) = .fin q ∧
            0 ≤ q ∧ q ≤ 100 := by
      intro m
      apply stochK_cases
      · rw [List.length_take, List.length_take, hle]
      · rw [List.length_take, List.length_take, hhe]
      · intro i hi
        rw [List.length_take] at hi
        have him : i < m := lt_of_lt_of_le hi (min_le_left _ _)
        have hic : i < close.length := lt_of_lt_of_le hi (min_le_right _ _)
        rw [nth_take low him, nth_take close him, nth_take high him]
        exact hv i hic
    simp only [stochD, if_neg hn]
    rcases pref (close.length - 2) with h1 | ⟨q1, h1, hq1, hq1'⟩ <;>
      rcases pref (close.length - 1) with h2 | ⟨q2, h2, hq2, hq2'⟩ <;>
      rcases stochK_cases hle hhe hv with h3 | ⟨q3, h3, hq3, hq3'⟩ <;>
      rw [h1, h2, h3] <;>
      first
        | (left; rfl)
        | (right
           exact ⟨(q1 + q2 + q3) / 3, rfl,
             div_nonneg (by linarith) (by norm_num),
             by rw [div_le_iff₀ (by norm_num : (0:ℚ) < 3)]; linarith⟩)

/-! ### Classifier characterizations used by claim C5 -/

lemma drl_high_iff (r : ℚ) : determine_risk_level r = .high ↔ 20 < |r - 50| := by
  rw [determine_risk_level]
  constructor
  · intro h
    by_cases h1 : r > 70 ∨ r < 30
    · rcases h1 with h1 | h1 <;>
        rcases abs_cases (r - 50) with ⟨he, _⟩ | ⟨he, _⟩ <;> linarith
    · rw [if_neg h1] at h
      split_ifs at h
  · intro h
    have h1 : r > 70 ∨ r < 30 := by
      rcases abs_cases (r - 50) with ⟨he, _⟩ | ⟨he, _⟩
      · left; linarith
      · right; linarith
    rw [if_pos h1]

lemma drl_low_iff (r : ℚ) : determine_risk_level r = .low ↔ |r - 50| ≤ 10 := by
  rw [determine_risk_level]
  split_ifs with h1 h2
  · constructor
    · intro h
      exact absurd h (by simp)
    · intro h
      exfalso
      rw [abs_le] at h
      rcases h1 with h1 | h1 <;> linarith
  · constructor
    · intro h
      exact absurd h (by simp)
    · intro h
      exfalso
      rw [abs_le] at h
      rcases h2 with h2 | h2 <;> linarith
  · push_neg at h1 h2
    constructor
    · intro _
      rw [abs_le]
      constructor <;> linarith [h1.1, h1.2, h2.1, h2.2]
    · intro _
      rfl

/-! ### The claims -/

/-- Claim C1, counterexample: on the perfectly linear series
`close[i] = 100 + i` for `i` in `0..29`, `linear_regression_predict` does
not return `134`: the source evaluates the fitted line at
`future_x = len(data) + 5 = 35`, not at the index 5 periods after the last
sample. -/
theorem c1_regression_not_134 :
    linear_regression_predict ((List.range 30).map (fun i => 100 + (i:ℚ))) ≠
      134 := by
  norm_num [linear_regression_predict, List.range_succ, lastN, listMean]

/-- Claim C1 (amended): on the series `close[i] = 100 + i` for `i` in
`0..29`, the OLS fit has intercept 100 and slope 1 and the source evaluates
it at index `sample_count + 5 = 35`, so `linear_regression_predict` returns
exactly `135` (the computation involves no randomness). -/
theorem c1_regression_flat_line_value :
    linear_regression_predict ((List.range 30).map (fun i => 100 + (i:ℚ))) =
      135 := by
  norm_num [linear_regression_predict, List.range_succ, lastN, listMean]

/-- Claim C2: for every indicator set, `determine_signal` returns BUY iff
the buy-votes (one for `rsi < 30`, one for `macd > 0`) strictly exceed the
sell-votes (one for `rsi > 70`, one for `macd < 0`), SELL iff sell-votes
strictly exceed buy-votes, and HOLD otherwise; quantifying over all rational
`rsi` and `macd` covers all 9 combinations of RSI bucket and MACD sign. -/
theorem c2_signal_vote_rule (rsi macd : ℚ) :
    (determine_signal rsi macd = .buy ↔
      sellVotes rsi macd < buyVotes rsi macd) ∧
    (determine_signal rsi macd = .sell ↔
      buyVotes rsi macd < sellVotes rsi macd) ∧
    (determine_signal rsi macd = .hold ↔
      buyVotes rsi macd = sellVotes rsi macd) := by
  simp only [determine_signal, buyVotes, sellVotes]
  split_ifs <;> simp_all <;> first | omega | linarith

/-- Claim C3: on the flat series of 60 bars with every close/high/low equal
to 100 and volume 1,000,000, the pipeline yields rsi = 50 (0/0 fallback),
macd = 0, ma20 = ma50 = 100, bb_upper = bb_lower = 100, atr = 0,
signal HOLD, risk Low, annualized volatility 0, support = resistance = 100
(the volume series does not enter any of these values). -/
theorem c3_flat_series_pipeline :
    calculate_rsi (List.replicate 60 (100:ℚ)) = 50 ∧
    calculate_macd (List.replicate 60 (100:ℚ)) = 0 ∧
    calculate_ma (List.replicate 60 (100:ℚ)) 20 = 100 ∧
    calculate_ma (List.replicate 60 (100:ℚ)) 50 = 100 ∧
    calculate_bb_upper (List.replicate 60 (100:ℚ)) = .fin 100 ∧
    calculate_bb_lower (List.replicate 60 (100:ℚ)) = .fin 100 ∧
    calculate_atr (List.replicate 60 (100:ℚ)) (List.replicate 60 100)
      (List.replicate 60 100) = 0 ∧
    determine_signal (calculate_rsi (List.replicate 60 (100:ℚ)))
      (calculate_macd (List.replicate 60 (100:ℚ))) = .hold ∧
    determine_risk_level (calculate_rsi (List.replicate 60 (100:ℚ))) = .low ∧
    calculate_volatility (List.replicate 60 (100:ℚ)) = 0 ∧
    calculate_support (List.replicate 60 (100:ℚ)) = 100 ∧
    calculate_resistance (List.replicate 60 (100:ℚ)) = 100 := by
  refine ⟨calculate_rsi_flat, calculate_macd_flat,
    calculate_ma_flat (by norm_num) (by norm_num),
    calculate_ma_flat (by norm_num) (by norm_num),
    calculate_bb_upper_flat, calculate_bb_lower_flat, calculate_atr_flat,
    ?_, ?_, calculate_volatility_flat, calculate_support_flat,
    calculate_resistance_flat⟩
  · rw [calculate_rsi_flat, calculate_macd_flat]
    norm_num [determine_signal]
  · rw [calculate_rsi_flat]
    rw [determine_risk_level, if_neg (by norm_num), if_neg (by norm_num)]

/-- Claim C4, counterexample: with bars whose closes are not constrained to
lie between the bar's low and high (all values finite), Stochastic %K
escapes [0, 100]: highs `110, 100×13`, lows `100×14`, closes
`100×13, 200` give `%K = 100·(200-100)/(110-100) = 1000`, which is neither
in [0, 100] nor the fallback 50. -/
theorem c4_stochastic_escapes_range :
    calculate_stochastic_k ((110:ℚ) :: List.replicate 13 100)
      (List.replicate 14 (100:ℚ)) (List.replicate 13 (100:ℚ) ++ [200]) =
      .fin 1000 ∧
    ¬ ((0:ℚ) ≤ 1000 ∧ (1000:ℚ) ≤ 100) ∧ (1000:ℚ) ≠ 50 := by
  refine ⟨?_, by norm_num, by norm_num⟩
  have h1 : listMin (lastN 14 (List.replicate 14 (100:ℚ))) = 100 := by
    rw [lastN_of_length_le (by simp)]
    exact listMin_replicate (by norm_num) 100
  have h2 : listMax (lastN 14 ((110:ℚ) :: List.replicate 13 100)) = 110 := by
    rw [lastN_of_length_le (by simp)]
    show (List.replicate 13 (100:ℚ)).foldl max 110 = 110
    rw [foldl_max_replicate, if_neg (by norm_num), max_eq_left (by norm_num)]
  have h3 : lastD (List.replicate 13 (100:ℚ) ++ [200]) = 200 :=
    lastD_append_single _ _
  have hlen : ¬ (List.replicate 13 (100:ℚ) ++ [200]).length < 14 := by simp
  rw [calculate_stochastic_k]
  simp only [stochK, if_neg hlen, h1, h2, h3]
  norm_num [unNaN]

/-- Claim C4 (amended): the computed RSI lies in [0, 100] for every input
price series with no precondition; Stochastic %K and %D are finite values
in [0, 100] (the undefined-window fallback 50.0 included) provided every
bar satisfies `low ≤ close ≤ high` — without that bar-validity
precondition the bound fails (see the counterexample). -/
theorem c4_rsi_stochastic_bounds (high low close : List ℚ) :
    (0 ≤ calculate_rsi close ∧ calculate_rsi close ≤ 100) ∧
    (low.length = close.length → high.length = close.length →
      (∀ i, i < close.length →
        nth low i ≤ nth close i ∧ nth close i ≤ nth high i) →
      (∃ q, calculate_stochastic_k high low close = .fin q ∧
        0 ≤ q ∧ q ≤ 100) ∧
      (∃ q, calculate_stochastic_d high low close = .fin q ∧
        0 ≤ q ∧ q ≤ 100)) := by
  refine ⟨calculate_rsi_bounds close, fun hle hhe hv => ⟨?_, ?_⟩⟩
  · rcases stochK_cases hle hhe hv with h | ⟨q, h, h0, h100⟩
    · exact ⟨50, by rw [calculate_stochastic_k, h]; rfl, by norm_num,
        by norm_num⟩
    · exact ⟨q, by rw [calculate_stochastic_k, h]; rfl, h0, h100⟩
  · rcases stochD_cases hle hhe hv with h | ⟨q, h, h0, h100⟩
    · exact ⟨50, by rw [calculate_stochastic_d, h]; rfl, by norm_num,
        by norm_num⟩
    · exact ⟨q, by rw [calculate_stochastic_d, h]; rfl, h0, h100⟩

/-- Witness for C4: the bounds instantiated on a concrete valid 14-bar flat
series. -/
theorem c4_rsi_stochastic_bounds_witness :
    (0 ≤ calculate_rsi (List.replicate 14 (100:ℚ)) ∧
      calculate_rsi (List.replicate 14 (100:ℚ)) ≤ 100) ∧
    (∃ q, calculate_stochastic_k (List.replicate 14 (100:ℚ))
        (List.replicate 14 100) (List.replicate 14 100) = .fin q ∧
      0 ≤ q ∧ q ≤ 100) ∧
    (∃ q, calculate_stochastic_d (List.replicate 14 (100:ℚ))
        (List.replicate 14 100) (List.replicate 14 100) = .fin q ∧
      0 ≤ q ∧ q ≤ 100) := by
  have h := c4_rsi_stochastic_bounds (List.replicate 14 100)
    (List.replicate 14 100) (List.replicate 14 100)
  exact ⟨h.1, (h.2 rfl rfl (fun i _ => ⟨le_refl _, le_refl _⟩)).1,
    (h.2 rfl rfl (fun i _ => ⟨le_refl _, le_refl _⟩)).2⟩

/-- Claim C5: the risk classifier maps the boundary RSI values
29/71 to High, 30/39/61/69/70 to Medium and 40/60 to Low, and the
classification is monotone in the distance of RSI from 50. -/
theorem c5_risk_rule :
    (∀ r1 r2 : ℚ, |r1 - 50| ≤ |r2 - 50| →
      riskRank (determine_risk_level r1) ≤
        riskRank (determine_risk_level r2)) ∧
    determine_risk_level 29 = .high ∧ determine_risk_level 71 = .high ∧
    determine_risk_level 30 = .medium ∧ determine_risk_level 39 = .medium ∧
    determine_risk_level 61 = .medium ∧ determine_risk_level 69 = .medium ∧
    determine_risk_level 70 = .medium ∧
    determine_risk_level 40 = .low ∧ determine_risk_level 60 = .low := by
  refine ⟨?_, ?_, ?_, ?_, ?_, ?_, ?_, ?_, ?_, ?_⟩
  · intro r1 r2 hle
    cases hc1 : determine_risk_level r1 with
    | high =>
      have h1 : 20 < |r1 - 50| := (drl_high_iff r1).mp hc1
      have h2 : determine_risk_level r2 = .high :=
        (drl_high_iff r2).mpr (by linarith)
      rw [h2]
    | medium =>
      have h1 : ¬ (|r1 - 50| ≤ 10) := by
        intro hle10
        have h := (drl_low_iff r1).mpr hle10
        rw [hc1] at h
        exact absurd h (by simp)
      have h2 : determine_risk_level r2 ≠ .low := by
        intro hl
        have := (drl_low_iff r2).mp hl
        push_neg at h1
        linarith
      cases h3 : determine_risk_level r2 with
      | high => norm_num [riskRank]
      | medium => norm_num [riskRank]
      | low => exact absurd h3 h2
    | low =>
      cases determine_risk_level r2 <;> norm_num [riskRank]
  · rw [determine_risk_level, if_pos (Or.inr (by norm_num))]
  · rw [determine_risk_level, if_pos (Or.inl (by norm_num))]
  · rw [determine_risk_level, if_neg (by norm_num),
      if_pos (Or.inr (by norm_num))]
  · rw [determine_risk_level, if_neg (by norm_num),
      if_pos (Or.inr (by norm_num))]
  · rw [determine_risk_level, if_neg (by norm_num),
      if_pos (Or.inl (by norm_num))]
  · rw [determine_risk_level, if_neg (by norm_num),
      if_pos (Or.inl (by norm_num))]
  · rw [determine_risk_level, if_neg (by norm_num),
      if_pos (Or.inl (by norm_num))]
  · rw [determine_risk_level, if_neg (by norm_num), if_neg (by norm_num)]
  · rw [determine_risk_level, if_neg (by norm_num), if_neg (by norm_num)]

/-- Witness for C5: the monotonicity part applied to the concrete pair
`rsi = 40` (distance 10) and `rsi = 29` (distance 21). -/
theorem c5_risk_rule_witness :
    riskRank (determine_risk_level 40) ≤ riskRank (determine_risk_level 29) :=
  c5_risk_rule.1 40 29 (by norm_num)

/-- Claim C6: the forecast confidence equals the clamped value
`clip(70 - min(volatility*2, 30) - (30 - samples when samples < 30), 0, 100)`,
always lies in [0, 100], and equals exactly 70 when volatility is 0 and at
least 30 samples exist. -/
theorem c6_confidence_formula (v : ℚ) (n : ℕ) :
    calculate_confidence v n =
      npClip (70 - min (v * 2) 30 -
        (if n < 30 then (30 : ℚ) - n else 0)) 0 100 ∧
    0 ≤ calculate_confidence v n ∧ calculate_confidence v n ≤ 100 ∧
    (v = 0 → 30 ≤ n → calculate_confidence v n = 70) := by
  refine ⟨rfl, ?_, ?_, ?_⟩
  · rw [calculate_confidence, npClip]
    exact le_min (le_max_right _ _) (by norm_num)
  · rw [calculate_confidence, npClip]
    exact min_le_right _ _
  · intro hv hn
    rw [calculate_confidence, hv, if_neg (by omega)]
    norm_num [npClip, min_def, max_def]

/-- Witness for C6: confidence at zero volatility and 30 samples is
exactly 70. -/
theorem c6_confidence_formula_witness : calculate_confidence 0 30 = 70 :=
  (c6_confidence_formula 0 30).2.2.2 rfl (by norm_num)

/-- Claim C7: `determine_trend` ignores the timeframe argument, so the
short/medium/long labels always coincide, and the label is Bullish exactly
when `ma20 > ma50`, Bearish exactly when `ma20 < ma50`, Neutral exactly
when they are equal. -/
theorem c7_trend_rule (ma20 ma50 : ℚ) (t1 t2 : String) :
    determine_trend ma20 ma50 t1 = determine_trend ma20 ma50 t2 ∧
    (determine_trend ma20 ma50 t1 = .bullish ↔ ma50 < ma20) ∧
    (determine_trend ma20 ma50 t1 = .bearish ↔ ma20 < ma50) ∧
    (determine_trend ma20 ma50 t1 = .neutral ↔ ma20 = ma50) := by
  refine ⟨rfl, ?_, ?_, ?_⟩ <;> rw [determine_trend] <;>
    split_ifs with h1 h2 <;> simp_all <;> linarith

/-- Claim C8, counterexample: a legal perturbation (`r = 1` lies in
`[-volatility/100, volatility/100]` for volatility 100) pushes the
prediction for `current_price = 100`, `trend_strength = 1`, `hours = 168`
above `current_price * (1 + (|trend_factor - 1| + volatility/100))`
(233.6 > 216.8): the claimed envelope misses the cross term. -/
theorem c8_bound_violated :
    |(1:ℚ)| ≤ 100 / 100 ∧
    ¬ (predict_next_period 100 1 100 168 1 ≤
        100 * (1 + (|(1 + 1 * (1 / 1000) * ((168:ℕ):ℚ)) - 1| + 100 / 100))) := by
  constructor
  · norm_num
  · have habs : |(1 + 1 * (1 / 1000) * ((168:ℕ):ℚ)) - 1| = 21 / 125 := by
      rw [abs_of_pos (by norm_num)]
      norm_num
    rw [predict_next_period, habs]
    push_neg
    norm_num

/-- Claim C8 (amended): for every perturbation `r` with
`|r| ≤ volatility/100`, the predicted price deviates from the current price
by at most `|current_price| * (|trend_factor - 1| * (1 + volatility/100) +
volatility/100)` — the claimed envelope plus the unavoidable cross term
`|trend_factor - 1| * volatility/100`. -/
theorem c8_horizon_envelope (cp ts v : ℚ) (hours : ℕ) (r : ℚ)
    (hr : |r| ≤ v / 100) :
    |predict_next_period cp ts v hours r - cp| ≤
      |cp| * (|(1 + ts * (1 / 1000) * hours) - 1| * (1 + v / 100) +
        v / 100) := by
  set t := ts * (1 / 1000) * (hours : ℚ) with ht
  have hv100 : 0 ≤ v / 100 := le_trans (abs_nonneg r) hr
  have h1 : predict_next_period cp ts v hours r - cp =
      cp * (t * (1 + r) + r) := by
    rw [predict_next_period]
    ring
  have h2 : |(1 + t) - 1| = |t| := by rw [add_sub_cancel_left]
  rw [h1, h2, abs_mul]
  apply mul_le_mul_of_nonneg_left _ (abs_nonneg cp)
  calc |t * (1 + r) + r| ≤ |t * (1 + r)| + |r| := abs_add _ _
    _ = |t| * |1 + r| + |r| := by rw [abs_mul]
    _ ≤ |t| * (1 + v / 100) + v / 100 := by
        have hb : |1 + r| ≤ 1 + v / 100 :=
          le_trans (abs_add 1 r) (by rw [abs_one]; linarith)
        exact add_le_add (mul_le_mul_of_nonneg_left hb (abs_nonneg t)) hr

/-- Witness for C8: the envelope at `cp = 100`, `ts = 0`, `v = 0`,
`hours = 1`, `r = 0`. -/
theorem c8_horizon_envelope_witness :
    |predict_next_period 100 0 0 1 0 - 100| ≤
      |(100:ℚ)| * (|(1 + 0 * (1 / 1000) * ((1:ℕ):ℚ)) - 1| * (1 + 0 / 100) +
        0 / 100) :=
  c8_horizon_envelope 100 0 0 1 0 (by norm_num)

set_option maxRecDepth 8000 in
/-- Claim C9, counterexample: 200 finite bars (high = low = 100 throughout,
closes 100 except a final 200) make Stochastic %K positive infinity —
`100·(200-100)/(100-100)` — which passes the `isna` guard and lands in the
indicator set as a non-finite value. -/
theorem c9_stoch_k_infinite :
    (calculate_indicators (List.replicate 199 (100:ℚ) ++ [200])
      (List.replicate 200 (100:ℚ)) (List.replicate 200 (100:ℚ))
      (List.replicate 200 (100:ℚ))).stoch_k = .pinf ∧
    ¬ (PFloat.pinf).isFinite := by
  constructor
  · show calculate_stochastic_k (List.replicate 200 (100:ℚ))
      (List.replicate 200 (100:ℚ))
      (List.replicate 199 (100:ℚ) ++ [200]) = .pinf
    have h1 : listMin (lastN 14 (List.replicate 200 (100:ℚ))) = 100 := by
      rw [lastN_replicate]
      exact listMin_replicate (by norm_num) 100
    have h2 : listMax (lastN 14 (List.replicate 200 (100:ℚ))) = 100 := by
      rw [lastN_replicate]
      exact listMax_replicate (by norm_num) 100
    have h3 : lastD (List.replicate 199 (100:ℚ) ++ [200]) = 200 :=
      lastD_append_single _ _
    have hlen : ¬ (List.replicate 199 (100:ℚ) ++ [200]).length < 14 := by simp
    rw [calculate_stochastic_k]
    simp only [stochK, if_neg hlen, h1, h2, h3]
    norm_num [unNaN]
  · exact fun h => h

/-- Claim C9 (amended): for parallel series of at least 200 bars whose bars
satisfy `low ≤ close ≤ high`, the indicator set holds finite values in every
field: the 11 rational-valued fields are finite by construction, and the
only fields whose float computation can go non-finite — the stochastic pair
and the three Bollinger values — are proved finite here.  Without the
bar-validity precondition this fails (see the counterexample). -/
theorem c9_indicator_set_finite (close high low volume : List ℚ)
    (hle : low.length = close.length) (hhe : high.length = close.length)
    (hve : volume.length = close.length) (hn : 200 ≤ close.length)
    (hv : ∀ i, i < close.length →
      nth low i ≤ nth close i ∧ nth close i ≤ nth high i) :
    (∃ q, (calculate_indicators close high low volume).stoch_k = .fin q) ∧
    (∃ q, (calculate_indicators close high low volume).stoch_d = .fin q) ∧
    (∃ x, (calculate_indicators close high low volume).bb_upper = .fin x) ∧
    (∃ x, (calculate_indicators close high low volume).bb_middle = .fin x) ∧
    (∃ x, (calculate_indicators close high low volume).bb_lower = .fin x) := by
  refine ⟨?_, ?_, ?_, ?_, ?_⟩
  · show ∃ q, calculate_stochastic_k high low close = .fin q
    rcases stochK_cases hle hhe hv with h | ⟨q, h, _, _⟩
    · exact ⟨50, by rw [calculate_stochastic_k, h]; rfl⟩
    · exact ⟨q, by rw [calculate_stochastic_k, h]; rfl⟩
  · show ∃ q, calculate_stochastic_d high low close = .fin q
    rcases stochD_cases hle hhe hv with h | ⟨q, h, _, _⟩
    · exact ⟨50, by rw [calculate_stochastic_d, h]; rfl⟩
    · exact ⟨q, by rw [calculate_stochastic_d, h]; rfl⟩
  · show ∃ x, calculate_bb_upper close = .fin x
    rw [calculate_bb_upper, if_pos (by omega)]
    exact ⟨_, rfl⟩
  · show ∃ x, calculate_bb_middle close = .fin x
    rw [calculate_bb_middle, if_pos (by omega)]
    exact ⟨_, rfl⟩
  · show ∃ x, calculate_bb_lower close = .fin x
    rw [calculate_bb_lower, if_pos (by omega)]
    exact ⟨_, rfl⟩

set_option maxRecDepth 8000 in
/-- Witness for C9: the finiteness statement instantiated on a concrete
valid 200-bar flat series. -/
theorem c9_indicator_set_finite_witness :
    (∃ q, (calculate_indicators (List.replicate 200 (100:ℚ))
      (List.replicate 200 100) (List.replicate 200 100)
      (List.replicate 200 100)).stoch_k = .fin q) ∧
    (∃ q, (calculate_indicators (List.replicate 200 (100:ℚ))
      (List.replicate 200 100) (List.replicate 200 100)
      (List.replicate 200 100)).stoch_d = .fin q) ∧
    (∃ x, (calculate_indicators (List.replicate 200 (100:ℚ))
      (List.replicate 200 100) (List.replicate 200 100)
      (List.replicate 200 100)).bb_upper = .fin x) ∧
    (∃ x, (calculate_indicators (List.replicate 200 (100:ℚ))
      (List.replicate 200 100) (List.replicate 200 100)
      (List.replicate 200 100)).bb_middle = .fin x) ∧
    (∃ x, (calculate_indicators (List.replicate 200 (100:ℚ))
      (List.replicate 200 100) (List.replicate 200 100)
      (List.replicate 200 100)).bb_lower = .fin x) :=
  c9_indicator_set_finite _ _ _ _ rfl rfl rfl (by simp)
    (fun i _ => ⟨le_refl _, le_refl _⟩)

/-- Claim C10 (implicit): for non-negative volatility and at least one
sample, the confidence lies in [11, 70] and the final clamp to [0, 100] is
the identity: the value already equals the unclamped expression. -/
theorem c10_confidence_range (v : ℚ) (n : ℕ) (hv : 0 ≤ v) (hn : 1 ≤ n) :
    11 ≤ calculate_confidence v n ∧ calculate_confidence v n ≤ 70 ∧
    calculate_confidence v n =
      70 - min (v * 2) 30 - (if n < 30 then (30 : ℚ) - n else 0) := by
  have hmin0 : 0 ≤ min (v * 2) 30 := le_min (by linarith) (by norm_num)
  have hmin30 : min (v * 2) 30 ≤ 30 := min_le_right _ _
  have hpen0 : 0 ≤ (if n < 30 then (30 : ℚ) - n else 0) := by
    split_ifs with h
    · have : (n:ℚ) < 30 := by exact_mod_cast h
      linarith
    · exact le_refl 0
  have hpen29 : (if n < 30 then (30 : ℚ) - n else 0) ≤ 29 := by
    split_ifs with h
    · have : (1:ℚ) ≤ n := by exact_mod_cast hn
      linarith
    · norm_num
  have h11 : 11 ≤ 70 - min (v * 2) 30 -
      (if n < 30 then (30 : ℚ) - n else 0) := by
    linarith
  have h70 : 70 - min (v * 2) 30 -
      (if n < 30 then (30 : ℚ) - n else 0) ≤ 70 := by
    linarith
  have hclip : calculate_confidence v n =
      70 - min (v * 2) 30 - (if n < 30 then (30 : ℚ) - n else 0) := by
    rw [calculate_confidence, npClip, max_eq_left (by linarith),
      min_eq_left (by linarith)]
  exact ⟨hclip ▸ h11, hclip ▸ h70, hclip⟩

/-- Witness for C10: the range statement at zero volatility and a single
sample (confidence 41). -/
theorem c10_confidence_range_witness :
    11 ≤ calculate_confidence 0 1 ∧ calculate_confidence 0 1 ≤ 70 ∧
    calculate_confidence 0 1 =
      70 - min ((0:ℚ) * 2) 30 - (if (1:ℕ) < 30 then (30 : ℚ) - (1:ℕ) else 0) :=
  c10_confidence_range 0 1 (le_refl 0) (le_refl 1)
